import Mathlib

/-!
Verification of the tracecmd Python wrapper (src/tracecmd.py), a reader for
ftrace binary capture files.  The wrapper drives an underlying C engine
(the ctracecmd module) that is not part of the repository sources; every
primitive of that engine used here is modelled from the design specification
and carries a doc comment saying so.  Everything written in Python in
tracecmd.py is translated directly.

Conventions of the embedding:
  - Python exceptions are modelled with `Except PyExc`; a function that
    cannot raise is total.
  - Python object mutation (the lazy caches) is modelled by explicit state
    passing: an accessor returns the value together with the updated object.
  - Timestamps and byte values are `Nat`; process ids are `Int`; per-CPU
    streams are lists of records and a cursor is a list index.
-/

namespace Tracecmd

/-- Python exceptions raised by tracecmd.py, by class.  `keyError` is the
builtin KeyError, `valueError` the builtin ValueError raised by min/max of
an empty sequence, `indexError` the builtin IndexError of list indexing;
`fieldError` and `fileFormatError` are the two classes defined in the file. -/
inductive PyExc where
  | keyError (msg : String)
  | valueError (msg : String)
  | indexError (msg : String)
  | fieldError (msg : String)
  | fileFormatError (msg : String)
  deriving DecidableEq

/-- One field of an event format: name, byte offset and width inside the
record payload, and whether the field is string-kind (fixed or dynamic
string) rather than a fixed-width integer.  Modelled from the spec section
on Field Schemas; the C format tables are not under src/. -/
structure FieldFormat where
  name : String
  offset : Nat
  size : Nat
  isString : Bool
  deriving DecidableEq

/-- An event format (schema): declared name, numeric type-id, the common
header fields shared by every event, and the event-specific fields.
Modelled from the spec section on the Format Catalog. -/
structure EventFormat where
  name : String
  id : Nat
  commonFields : List FieldFormat
  fields : List FieldFormat
  deriving DecidableEq

/-- A raw record: CPU index, absolute timestamp, embedded type-id, payload
bytes, and the decoded value of the fixed common-header pid field.
Modelled from the spec section on Raw Records. -/
structure Record where
  cpu : Nat
  ts : Nat
  typeId : Nat
  data : List Nat
  commonPid : Int
  deriving DecidableEq

/-- The parsed-event handle: the format catalog keyed by type-id and the
session-wide pid to process-name table.  Modelled from the spec: the
Format Catalog and the pid-to-name table live in the C engine. -/
structure Pevent where
  catalog : List (Nat × EventFormat)
  pidNames : List (Int × String)
  deriving DecidableEq

/-- Association-list lookup by numeric type-id (first match wins). -/
def lookupId (ty : Nat) : List (Nat × EventFormat) → Option EventFormat
  | [] => none
  | (i, f) :: rest => if i = ty then some f else lookupId ty rest

/-- Association-list lookup of a process name by pid (first match wins). -/
def lookupPid (p : Int) : List (Int × String) → Option String
  | [] => none
  | (q, s) :: rest => if q = p then some s else lookupPid p rest

/-- Find a field by name in a field list (first match wins). -/
def findFieldIn (n : String) : List FieldFormat → Option FieldFormat
  | [] => none
  | f :: rest => if f.name = n then some f else findFieldIn n rest

/-- Modelled from the spec: `pevent_record_cpu_get` returns the CPU index
stored in a raw record. -/
def pevent_record_cpu_get (r : Record) : Nat := r.cpu

/-- Modelled from the spec: `pevent_record_ts_get` returns the absolute
timestamp stored in a raw record. -/
def pevent_record_ts_get (r : Record) : Nat := r.ts

/-- Modelled from the spec: `pevent_record_data_get` returns the payload
bytes of a raw record. -/
def pevent_record_data_get (r : Record) : List Nat := r.data

/-- Modelled from the spec: `event_format_name_get` returns the declared
name of an event format. -/
def event_format_name_get (f : EventFormat) : String := f.name

/-- Modelled from the spec: `pevent_data_type` extracts the embedded
type-id from a raw record. -/
def pevent_data_type (_pv : Pevent) (r : Record) : Nat := r.typeId

/-- Modelled from the spec: `pevent_data_event_from_type` looks the type-id
up in the Format Catalog, returning none for an unknown event type. -/
def pevent_data_event_from_type (pv : Pevent) (ty : Nat) : Option EventFormat :=
  lookupId ty pv.catalog

/-- Modelled from the spec: `pevent_data_pid` reads the fixed well-known
common-header pid field of a record. -/
def pevent_data_pid (_pv : Pevent) (r : Record) : Int := r.commonPid

/-- Modelled from the spec: `pevent_data_comm_from_pid` resolves a pid in
the session-wide pid-to-name table; an absent entry resolves to the unknown
sentinel rather than failing. -/
def pevent_data_comm_from_pid (pv : Pevent) (p : Int) : String :=
  match lookupPid p pv.pidNames with
  | some s => s
  | none => "<...>"

/-- Modelled from the spec: `pevent_find_field` searches the event-specific
fields of a format by name. -/
def pevent_find_field (f : EventFormat) (n : String) : Option FieldFormat :=
  findFieldIn n f.fields

/-- Modelled from the spec: `pevent_find_any_field` searches the common
header fields first and then the event-specific fields. -/
def pevent_find_any_field (f : EventFormat) (n : String) : Option FieldFormat :=
  match findFieldIn n f.commonFields with
  | some g => some g
  | none => findFieldIn n f.fields

/-- Little-endian assembly of a byte list into a natural number. -/
def bytesToNat : List Nat → Nat
  | [] => 0
  | b :: bs => b % 256 + 256 * bytesToNat bs

/-- Modelled from the spec: `pevent_read_number_field` returns a pair
(ret, val); ret is nonzero when the read fails, which happens when the
field is string-kind or its extent runs past the payload, and otherwise
val is the integer read at the field offset honoring file byte order
(rendered little-endian here). -/
def pevent_read_number_field (f : FieldFormat) (data : List Nat) : Nat × Nat :=
  if f.isString || decide (data.length < f.offset + f.size) then (1, 0)
  else (0, bytesToNat ((data.drop f.offset).take f.size))

/-- Modelled from the spec: `py_field_get_str` decodes the bytes of a field
as text, stopping at the first null terminator or at the field width. -/
def py_field_get_str (f : FieldFormat) (r : Record) : String :=
  String.mk ((((r.data.drop f.offset).take f.size).takeWhile (fun b => b ≠ 0)).map
    (fun b => Char.ofNat (b % 256)))

/-- The Field class of tracecmd.py: a raw record paired with one field
format of its event schema. -/
structure Field where
  _record : Record
  _field : FieldFormat
  deriving DecidableEq

/-- Field.__long__ (and __int__, which is bound to the same function):
reads the number via `pevent_read_number_field` and raises FieldError when
the read reports failure. -/
def Field.toInt (fl : Field) : Except PyExc Nat :=
  let rv := pevent_read_number_field fl._field (pevent_record_data_get fl._record)
  if rv.1 ≠ 0 then .error (.fieldError "Not a number field") else .ok rv.2

/-- Field.__str__: delegates to `py_field_get_str`. -/
def Field.toStr (fl : Field) : String := py_field_get_str fl._field fl._record

/-- The Event class of tracecmd.py.  The constructor copies cpu, ts and
name out of the record and format and leaves the comm and pid caches
unset (Python None, modelled as `none`). -/
structure Event where
  _pevent : Pevent
  _record : Record
  _format : EventFormat
  type : Nat
  cpu : Nat
  ts : Nat
  name : String
  _comm : Option String
  _pid : Option Int
  deriving DecidableEq

/-- Event.__init__. -/
def Event.make (pv : Pevent) (record : Record) (format : EventFormat)
    (type : Nat) : Event :=
  { _pevent := pv, _record := record, _format := format, type := type,
    cpu := pevent_record_cpu_get record, ts := pevent_record_ts_get record,
    name := event_format_name_get format, _comm := none, _pid := none }

/-- Event.__getitem__: looks the name up among the event-specific fields
and raises the builtin KeyError when it is absent (the Python message is
formatted with quotes around the name).  The second component is the event
after the call; __getitem__ touches no attribute, so it is returned
unchanged. -/
def Event.getitem (e : Event) (n : String) : Except PyExc Field × Event :=
  match pevent_find_field e._format n with
  | none => (.error (.keyError ("no field " ++ n)), e)
  | some f => (.ok { _record := e._record, _field := f }, e)

/-- Event.pid property: lazily resolves the process id via
`pevent_data_pid` on first access and caches it. -/
def Event.pidAccess (e : Event) : Int × Event :=
  match e._pid with
  | some p => (p, e)
  | none =>
      let p := pevent_data_pid e._pevent e._record
      (p, { e with _pid := some p })

/-- Event.comm property: lazily resolves the process name from the pid
(itself resolved through the pid property, caching it too) and caches the
result. -/
def Event.commAccess (e : Event) : String × Event :=
  match e._comm with
  | some c => (c, e)
  | none =>
      let pe := e.pidAccess
      let c := pevent_data_comm_from_pid pe.2._pevent pe.1
      (c, { pe.2 with _comm := some c })

/-- Event.num_field: returns None when the field is absent from both field
lists and also when the numeric read fails; never raises. -/
def Event.num_field (e : Event) (name : String) : Option Nat :=
  match pevent_find_any_field e._format name with
  | none => none
  | some f =>
      let rv := pevent_read_number_field f (pevent_record_data_get e._record)
      if rv.1 ≠ 0 then none else some rv.2

/-- Event.str_field: returns None when the field is absent from both field
lists, otherwise the decoded string; never raises. -/
def Event.str_field (e : Event) (name : String) : Option String :=
  match pevent_find_any_field e._format name with
  | none => none
  | some f => some (py_field_get_str f e._record)

/-- The effective index of Python list indexing: a negative index counts
from the end. -/
def pyIndex (len : Nat) (i : Int) : Int :=
  if i < 0 then (len : Int) + i else i

/-- Python list indexing, where a negative index counts from the end and an
out-of-range index raises IndexError. -/
def pyGet (l : List Nat) (i : Int) : Except PyExc Nat :=
  if h : 0 ≤ pyIndex l.length i ∧ (pyIndex l.length i).toNat < l.length then
    .ok (l.get ⟨(pyIndex l.length i).toNat, h.2⟩)
  else .error (.indexError "list index out of range")

/-- The Trace class state: CPU count, the per-CPU record streams of the
capture (the Record Store, modelled from the spec as plain lists since the
C engine is not under src/), the parsed-event handle, and the two lazy
timestamp caches, None until first computed. -/
structure Trace where
  cpus : Nat
  streams : List (List Record)
  _pevent : Pevent
  _start_time : Option (List Nat)
  _end_time : Option (List Nat)
  deriving DecidableEq

/-- The record stream of one CPU (empty for an out-of-range index). -/
def Trace.stream (t : Trace) (c : Nat) : List Record := t.streams.getD c []

/-- Modelled from the spec: `tracecmd_read_cpu_first` returns the earliest
record on a CPU without disturbing the cursor, or none when the stream is
empty. -/
def tracecmd_read_cpu_first (t : Trace) (c : Nat) : Option Record :=
  (t.stream c).head?

/-- Modelled from the spec: `tracecmd_read_cpu_last` returns the latest
record on a CPU without disturbing the cursor, or none when the stream is
empty. -/
def tracecmd_read_cpu_last (t : Trace) (c : Nat) : Option Record :=
  (t.stream c).getLast?

/-- The per-CPU list built by the loop inside the start_time getter: for
each CPU in ascending order, the timestamp of the first record, or 0 when
the stream is empty. -/
def startBase (t : Trace) : List Nat :=
  (List.range t.cpus).map (fun c =>
    match tracecmd_read_cpu_first t c with
    | some r => pevent_record_ts_get r
    | none => 0)

/-- The per-CPU list built by the loop inside the end_time getter: for each
CPU in ascending order, the timestamp of the last record, or 0 when the
stream is empty. -/
def endBase (t : Trace) : List Nat :=
  (List.range t.cpus).map (fun c =>
    match tracecmd_read_cpu_last t c with
    | some r => pevent_record_ts_get r
    | none => 0)

/-- Python `min(filter(lambda v: v > 0, l))`: none models the ValueError
raised on an empty filtered sequence. -/
def minPos (l : List Nat) : Option Nat :=
  match l.filter (fun v => decide (0 < v)) with
  | [] => none
  | x :: xs => some (xs.foldl min x)

/-- Python `max(filter(lambda v: v > 0, l))`: none models the ValueError
raised on an empty filtered sequence. -/
def maxPos (l : List Nat) : Option Nat :=
  match l.filter (fun v => decide (0 < v)) with
  | [] => none
  | x :: xs => some (xs.foldl max x)

/-- The start_time getter with its `cpu` selector (the Python source wraps
it in `property`, whose getter always passes the default -1).  On first
access it builds the per-CPU list, appends the minimum of the nonzero
entries (ValueError when there is none) and caches the result; note that
the Python for-loop rebinds the local variable `cpu`, so when at least one
CPU exists the index used by the final return of the first access is
`cpus - 1`, not the selector that was passed in.  A later access indexes
the cached list with the selector. -/
def Trace.startTimeAccess (t : Trace) (cpu : Int) : Except PyExc (Nat × Trace) :=
  match t._start_time with
  | some l => (pyGet l cpu).map (fun v => (v, t))
  | none =>
      let base := startBase t
      match minPos base with
      | none => .error (.valueError "min() arg is an empty sequence")
      | some ts =>
          let l := base ++ [ts]
          let idx : Int := if t.cpus = 0 then cpu else ((t.cpus - 1 : Nat) : Int)
          (pyGet l idx).map (fun v => (v, { t with _start_time := some l }))

/-- The end_time getter, symmetric to start_time with last records and the
maximum of the nonzero entries; it rebinds `cpu` the same way. -/
def Trace.endTimeAccess (t : Trace) (cpu : Int) : Except PyExc (Nat × Trace) :=
  match t._end_time with
  | some l => (pyGet l cpu).map (fun v => (v, t))
  | none =>
      let base := endBase t
      match maxPos base with
      | none => .error (.valueError "max() arg is an empty sequence")
      | some ts =>
          let l := base ++ [ts]
          let idx : Int := if t.cpus = 0 then cpu else ((t.cpus - 1 : Nat) : Int)
          (pyGet l idx).map (fun v => (v, { t with _end_time := some l }))

/-- Trace.record_to_event: None stays None; a record whose type-id is
unknown to the catalog, or zero, gives None; otherwise the record is
wrapped in an Event bound to its format. -/
def Trace.record_to_event (t : Trace) (record : Option Record) : Option Event :=
  match record with
  | none => none
  | some r =>
      let ty := pevent_data_type t._pevent r
      match pevent_data_event_from_type t._pevent ty with
      | none => none
      | some format => if ty ≠ 0 then some (Event.make t._pevent r format ty) else none

/-- Modelled from the spec: `tracecmd_set_cpu_to_timestamp` repositions a
CPU cursor to the first record whose timestamp is at least the given
value; rendered as the index of that record in the stream (the stream
length when every record is earlier). -/
def seekIndex (stream : List Record) (startTime : Nat) : Nat :=
  stream.findIdx (fun r => decide (startTime ≤ r.ts))

/-- The while-loop body of Trace.events for one CPU, starting from the
repositioned cursor: each iteration reads the next record, breaks when the
read or the event conversion yields None, breaks when a bounded range is
exceeded, and otherwise yields the event. -/
def eventLoop (t : Trace) (endTime : Nat) : List Record → List Event
  | [] => []
  | r :: rest =>
      match t.record_to_event (some r) with
      | none => []
      | some event =>
          if 0 < endTime ∧ endTime < event.ts then []
          else event :: eventLoop t endTime rest

/-- Trace.events as a list: the generator walks the CPUs in ascending
index order, and for each CPU matching the selector (every CPU when the
selector is -1) rewinds that CPU to start_time and runs the read loop; the
yielded sequence is the concatenation. -/
def Trace.events (t : Trace) (cpu : Int) (startTime endTime : Nat) : List Event :=
  ((List.range t.cpus).map (fun (c : Nat) =>
    if cpu = (c : Int) ∨ cpu = -1 then
      eventLoop t endTime ((t.stream c).drop (seekIndex (t.stream c) startTime))
    else [])).flatten

/-- The capture file as seen through the C engine at open time.  Modelled
from the spec: whether the header section and the data section parse, the
CPU count, the per-CPU streams and the parsed catalog and pid table. -/
structure CaptureFile where
  headersValid : Bool
  dataValid : Bool
  fileCpus : Nat
  fileStreams : List (List Record)
  filePevent : Pevent
  deriving DecidableEq

/-- Modelled from the spec: `tracecmd_read_headers` returns zero on
success and nonzero when the header or format catalog is unparsable. -/
def tracecmd_read_headers (f : CaptureFile) : Nat :=
  if f.headersValid then 0 else 1

/-- Modelled from the spec: `tracecmd_init_data` returns zero on success
and nonzero when the per-CPU data cannot be set up. -/
def tracecmd_init_data (f : CaptureFile) : Nat :=
  if f.dataValid then 0 else 1

/-- Trace.__init__: raises FileFormatError when reading the headers or
initializing the data fails, otherwise returns the session with the CPU
count and parsed-event handle set and both timestamp caches unset. -/
def openTrace (f : CaptureFile) : Except PyExc Trace :=
  if tracecmd_read_headers f ≠ 0 then .error (.fileFormatError "Invalid headers")
  else if tracecmd_init_data f ≠ 0 then .error (.fileFormatError "Failed to init data")
  else .ok { cpus := f.fileCpus, streams := f.fileStreams, _pevent := f.filePevent,
             _start_time := none, _end_time := none }

/-! Concrete data used by witnesses and counterexamples: the two-CPU
scenario of the design document, CPU0 with records at timestamps 100, 200,
300 and CPU1 at 150, 250. -/

/-- The common-header pid field. -/
def pidField : FieldFormat :=
  { name := "common_pid", offset := 0, size := 4, isString := false }

/-- A string-kind field of the example schema. -/
def strField : FieldFormat :=
  { name := "comm", offset := 4, size := 4, isString := true }

/-- A numeric field of the example schema. -/
def numField : FieldFormat :=
  { name := "value", offset := 8, size := 4, isString := false }

/-- The example event format, type-id 1. -/
def exFormat : EventFormat :=
  { name := "test_event", id := 1, commonFields := [pidField],
    fields := [strField, numField] }

/-- The example parsed-event handle. -/
def exPevent : Pevent :=
  { catalog := [(1, exFormat)], pidNames := [(42, "bash")] }

/-- The shared example payload: pid 42, the text bash, the value 7. -/
def exData : List Nat := [42, 0, 0, 0, 98, 97, 115, 104, 7, 0, 0, 0]

/-- Record on CPU0 at timestamp 100. -/
def r0 : Record := { cpu := 0, ts := 100, typeId := 1, data := exData, commonPid := 42 }

/-- Record on CPU0 at timestamp 200. -/
def r1 : Record := { cpu := 0, ts := 200, typeId := 1, data := exData, commonPid := 42 }

/-- Record on CPU0 at timestamp 300. -/
def r2 : Record := { cpu := 0, ts := 300, typeId := 1, data := exData, commonPid := 42 }

/-- Record on CPU1 at timestamp 150. -/
def r3 : Record := { cpu := 1, ts := 150, typeId := 1, data := exData, commonPid := 42 }

/-- Record on CPU1 at timestamp 250. -/
def r4 : Record := { cpu := 1, ts := 250, typeId := 1, data := exData, commonPid := 42 }

/-- The example trace session, freshly opened (both caches unset). -/
def exTrace : Trace :=
  { cpus := 2, streams := [[r0, r1, r2], [r3, r4]], _pevent := exPevent,
    _start_time := none, _end_time := none }

/-- A session whose capture has two CPUs and no records at all. -/
def emptyTrace : Trace :=
  { cpus := 2, streams := [[], []], _pevent := exPevent,
    _start_time := none, _end_time := none }

/-- An event view over the first example record. -/
def exEvent : Event := Event.make exPevent r0 exFormat 1

/-- A record whose type-id is absent from the example catalog. -/
def rU : Record := { cpu := 0, ts := 400, typeId := 5, data := exData, commonPid := 42 }

/-- A capture file whose header section does not parse. -/
def badFile : CaptureFile :=
  { headersValid := false, dataValid := true, fileCpus := 0, fileStreams := [],
    filePevent := exPevent }

/-- A capture file that parses, matching the example trace. -/
def goodFile : CaptureFile :=
  { headersValid := true, dataValid := true, fileCpus := 2,
    fileStreams := [[r0, r1, r2], [r3, r4]], filePevent := exPevent }

/-- Whether a field lookup result is a raised FieldError. -/
def raisedFieldError : Except PyExc Field → Bool
  | .error (.fieldError _) => true
  | _ => false

/-- Reading a valid nonnegative index with pyGet is plain list indexing. -/
theorem pyGet_natIdx (l : List Nat) (c : Nat) (h : c < l.length) :
    pyGet l (c : Int) = .ok (l.get ⟨c, h⟩) := by
  have hp : pyIndex l.length (c : Int) = (c : Int) := by
    unfold pyIndex
    rw [if_neg (by omega)]
  have ht : (pyIndex l.length (c : Int)).toNat = c := by rw [hp]; omega
  unfold pyGet
  rw [dif_pos (And.intro (by rw [hp]; omega) (by rw [ht]; exact h))]
  exact congrArg Except.ok (congrArg l.get (Fin.ext ht))

/-- Reading index -1 with pyGet returns the last element. -/
theorem pyGet_neg_one_append (l : List Nat) (m : Nat) :
    pyGet (l ++ [m]) (-1) = .ok m := by
  have hlen : (l ++ [m]).length = l.length + 1 := by simp
  have hp : pyIndex (l ++ [m]).length (-1) = (l.length : Int) := by
    unfold pyIndex
    rw [if_pos (by omega)]
    omega
  have ht : (pyIndex (l ++ [m]).length (-1)).toNat = l.length := by rw [hp]; omega
  unfold pyGet
  rw [dif_pos (And.intro (by rw [hp]; omega) (by rw [ht, hlen]; omega))]
  have hg : (l ++ [m]).get ⟨(pyIndex (l ++ [m]).length (-1)).toNat, by rw [ht, hlen]; omega⟩ =
      (l ++ [m]).get ⟨l.length, by rw [hlen]; omega⟩ :=
    congrArg (l ++ [m]).get (Fin.ext ht)
  rw [hg]
  congr 1
  simp [List.get_eq_getElem, List.getElem_append_right]

/-- Reading an index below the appended tail with pyGet reads the original
list. -/
theorem pyGet_append_left (l : List Nat) (m : Nat) (c : Nat) (h : c < l.length) :
    pyGet (l ++ [m]) (c : Int) = .ok (l.getD c 0) := by
  rw [pyGet_natIdx (l ++ [m]) c (by simp; omega)]
  congr 1
  rw [List.get_eq_getElem, List.getElem_append_left h]
  exact (List.getD_eq_getElem l 0 h).symm

/-- The fold of min that Python min performs is bounded by its seed. -/
theorem foldl_min_le_seed : ∀ (xs : List Nat) (x : Nat), xs.foldl min x ≤ x
  | [], _ => le_refl _
  | a :: as, x =>
      le_trans (foldl_min_le_seed as (min x a)) (min_le_left x a)

/-- The fold of min is bounded by every list element. -/
theorem foldl_min_le_mem : ∀ (xs : List Nat) (x y : Nat), y ∈ xs → xs.foldl min x ≤ y
  | a :: as, x, y, h => by
      rcases List.mem_cons.mp h with h1 | h2
      · subst h1
        exact le_trans (foldl_min_le_seed as (min x y)) (min_le_right x y)
      · exact foldl_min_le_mem as (min x a) y h2

/-- The fold of min is the seed or one of the list elements. -/
theorem foldl_min_mem : ∀ (xs : List Nat) (x : Nat),
    xs.foldl min x = x ∨ xs.foldl min x ∈ xs
  | [], _ => Or.inl rfl
  | a :: as, x => by
      rcases foldl_min_mem as (min x a) with h | h
      · rw [List.foldl_cons, h]
        rcases min_choice x a with h2 | h2
        · exact Or.inl h2
        · exact Or.inr (by rw [h2]; exact List.mem_cons_self a as)
      · exact Or.inr (List.mem_cons_of_mem a h)

/-- The fold of max that Python max performs dominates its seed. -/
theorem foldl_max_ge_seed : ∀ (xs : List Nat) (x : Nat), x ≤ xs.foldl max x
  | [], _ => le_refl _
  | a :: as, x =>
      le_trans (le_max_left x a) (foldl_max_ge_seed as (max x a))

/-- The fold of max dominates every list element. -/
theorem foldl_max_ge_mem : ∀ (xs : List Nat) (x y : Nat), y ∈ xs → y ≤ xs.foldl max x
  | a :: as, x, y, h => by
      rcases List.mem_cons.mp h with h1 | h2
      · subst h1
        exact le_trans (le_max_right x y) (foldl_max_ge_seed as (max x y))
      · exact foldl_max_ge_mem as (max x a) y h2

/-- The fold of max is the seed or one of the list elements. -/
theorem foldl_max_mem : ∀ (xs : List Nat) (x : Nat),
    xs.foldl max x = x ∨ xs.foldl max x ∈ xs
  | [], _ => Or.inl rfl
  | a :: as, x => by
      rcases foldl_max_mem as (max x a) with h | h
      · rw [List.foldl_cons, h]
        rcases max_choice x a with h2 | h2
        · exact Or.inl h2
        · exact Or.inr (by rw [h2]; exact List.mem_cons_self a as)
      · exact Or.inr (List.mem_cons_of_mem a h)

example : (exTrace.events (-1) 0 0).map Event.ts = [100, 200, 300, 150, 250] := by decide
example : (exTrace.events (-1) 0 250).map Event.ts = [100, 200, 150, 250] := by decide
example : (exTrace.events 1 150 0).map Event.ts = [150, 250] := by decide
example : exTrace.startTimeAccess (-1) =
    .ok (150, { exTrace with _start_time := some [100, 150, 100] }) := rfl
example : ({ exTrace with _start_time := some [100, 150, 100] } : Trace).startTimeAccess (-1) =
    .ok (100, { exTrace with _start_time := some [100, 150, 100] }) := rfl
example : exTrace.endTimeAccess (-1) =
    .ok (250, { exTrace with _end_time := some [300, 250, 300] }) := rfl
example : emptyTrace.startTimeAccess (-1) =
    .error (.valueError "min() arg is an empty sequence") := rfl
example : (exEvent.getitem "nonexistent").1 =
    .error (.keyError "no field nonexistent") := rfl
example : (Field.mk r0 strField).toInt = .error (.fieldError "Not a number field") := rfl
example : exEvent.num_field "value" = some 7 := by decide
example : exEvent.num_field "comm" = none := by decide
example : exEvent.str_field "comm" = some "bash" := by decide
example : exEvent.commAccess.1 = "bash" := by decide

/-- Claim C4, counterexample: on a valid event view, looking up a field
name absent from the schema does raise, but the exception is the builtin
KeyError, not the FieldError class the claim names. -/
theorem claim_C4_counterexample :
    pevent_find_field exEvent._format "nonexistent" = none ∧
    raisedFieldError (exEvent.getitem "nonexistent").1 = false ∧
    (exEvent.getitem "nonexistent").1 = .error (.keyError "no field nonexistent") :=
  ⟨rfl, rfl, rfl⟩

/-- Claim C4 (amended): for every valid event view and every field name not
declared among the event-specific fields of the bound schema, the
field-by-name lookup (Event.__getitem__) raises KeyError (not FieldError),
and doing so does not affect subsequent field accesses on the same view:
the view is returned unchanged, so any later lookup behaves as if the
failed one had not happened. -/
theorem claim_C4_getitem_missing_raises_keyerror (e : Event) (n : String)
    (h : pevent_find_field e._format n = none) :
    (e.getitem n).1 = .error (.keyError ("no field " ++ n)) ∧
    raisedFieldError (e.getitem n).1 = false ∧
    (e.getitem n).2 = e ∧
    (∀ m, ((e.getitem n).2).getitem m = e.getitem m) := by
  unfold Event.getitem
  rw [h]
  exact ⟨rfl, rfl, rfl, fun m => rfl⟩

/-- Witness for C4 at the example event and the name nonexistent. -/
theorem claim_C4_witness :
    pevent_find_field exEvent._format "nonexistent" = none ∧
    (exEvent.getitem "nonexistent").1 = .error (.keyError ("no field " ++ "nonexistent")) :=
  ⟨rfl, (claim_C4_getitem_missing_raises_keyerror exEvent "nonexistent" rfl).1⟩

/-- Claim C5: coercing a Field to an integer (Field.__long__, to which
__int__ is bound) raises FieldError explicitly when the underlying numeric
read fails, as it does on a string-kind field; no value is silently
returned. -/
theorem claim_C5_string_field_coercion_raises (fl : Field)
    (h : fl._field.isString = true) :
    fl.toInt = .error (.fieldError "Not a number field") := by
  unfold Field.toInt
  simp [pevent_read_number_field, h]

/-- Witness for C5 at the string-kind example field. -/
theorem claim_C5_witness :
    (Field.mk r0 strField)._field.isString = true ∧
    (Field.mk r0 strField).toInt = .error (.fieldError "Not a number field") :=
  ⟨rfl, claim_C5_string_field_coercion_raises (Field.mk r0 strField) rfl⟩

/-- Claim C6: record_to_event returns None (not an error) on a record whose
embedded type-id has no schema in the catalog, and on a record with a
matching schema and nonzero type-id it returns an Event bound to that
record and schema. -/
theorem claim_C6_record_to_event_option (t : Trace) (r : Record) :
    (pevent_data_event_from_type t._pevent (pevent_data_type t._pevent r) = none →
      t.record_to_event (some r) = none) ∧
    (∀ format,
      pevent_data_event_from_type t._pevent (pevent_data_type t._pevent r) = some format →
      r.typeId ≠ 0 →
      t.record_to_event (some r) = some (Event.make t._pevent r format r.typeId)) := by
  constructor
  · intro h
    simp only [Trace.record_to_event, h]
  · intro format h h0
    simp only [pevent_data_type] at h
    simp only [Trace.record_to_event, pevent_data_type, h]
    rw [if_pos h0]

/-- Witness for C6: an unknown type-id gives None, a known one gives the
bound event. -/
theorem claim_C6_witness :
    exTrace.record_to_event (some rU) = none ∧
    exTrace.record_to_event (some r0) = some (Event.make exPevent r0 exFormat 1) :=
  ⟨(claim_C6_record_to_event_option exTrace rU).1 rfl,
   (claim_C6_record_to_event_option exTrace r0).2 exFormat rfl (by decide)⟩

/-- Claim C7: opening a trace either fails with FileFormatError (whenever
the header section or the data section cannot be parsed) or succeeds with
the CPU count and parsed-event handle set and both timestamp caches unset;
no other outcome exists. -/
theorem claim_C7_open_all_or_nothing (f : CaptureFile) :
    ((f.headersValid = false ∨ f.dataValid = false) →
      ∃ msg, openTrace f = .error (.fileFormatError msg)) ∧
    (f.headersValid = true → f.dataValid = true →
      openTrace f = .ok { cpus := f.fileCpus, streams := f.fileStreams,
                          _pevent := f.filePevent, _start_time := none,
                          _end_time := none }) ∧
    ((∃ msg, openTrace f = .error (.fileFormatError msg)) ∨
      (∃ t, openTrace f = .ok t ∧ t.cpus = f.fileCpus ∧ t._pevent = f.filePevent ∧
        t._start_time = none ∧ t._end_time = none)) := by
  rcases f with ⟨hv, dv, nc, st, pv⟩
  cases hv <;> cases dv <;>
    simp [openTrace, tracecmd_read_headers, tracecmd_init_data]

/-- Witness for C7: a bad header fails with FileFormatError, the good file
opens as the example trace. -/
theorem claim_C7_witness :
    (∃ msg, openTrace badFile = .error (.fileFormatError msg)) ∧
    openTrace goodFile = .ok exTrace :=
  ⟨(claim_C7_open_all_or_nothing badFile).1 (Or.inl rfl),
   (claim_C7_open_all_or_nothing goodFile).2.1 rfl rfl⟩

/-- Claim C8: a freshly built event view has both the pid and the comm
cache unset; the first access resolves the pid from the record and the
comm through the pid-to-name table; and an access on a view that has been
accessed before returns the cached value with the view unchanged. -/
theorem claim_C8_lazy_pid_comm (pv : Pevent) (r : Record) (fmt : EventFormat)
    (ty : Nat) (e : Event) :
    (Event.make pv r fmt ty)._pid = none ∧
    (Event.make pv r fmt ty)._comm = none ∧
    ((Event.make pv r fmt ty).pidAccess).1 = pevent_data_pid pv r ∧
    ((Event.make pv r fmt ty).commAccess).1 =
      pevent_data_comm_from_pid pv (pevent_data_pid pv r) ∧
    e.pidAccess.2.pidAccess = e.pidAccess ∧
    e.commAccess.2.commAccess = e.commAccess := by
  refine ⟨rfl, rfl, rfl, rfl, ?_, ?_⟩
  · rcases e with ⟨pv2, r2, f2, ty2, c2, ts2, n2, oc, op⟩
    cases op <;> rfl
  · rcases e with ⟨pv2, r2, f2, ty2, c2, ts2, n2, oc, op⟩
    cases oc <;> cases op <;> rfl

/-- Claim C3: the code contradicts the claimed idempotence (a code bug,
the for-loop inside the getter rebinds the local variable cpu).  On the
example trace the first start_time access returns 150, the last CPU slot,
and caches [100, 150, 100]; the second access returns the cached session
minimum 100.  end_time behaves symmetrically: first access 250, then 300. -/
theorem claim_C3_code_bug_eval :
    exTrace.startTimeAccess (-1) =
      .ok (150, { exTrace with _start_time := some [100, 150, 100] }) ∧
    ({ exTrace with _start_time := some [100, 150, 100] } : Trace).startTimeAccess (-1) =
      .ok (100, { exTrace with _start_time := some [100, 150, 100] }) ∧
    exTrace.endTimeAccess (-1) =
      .ok (250, { exTrace with _end_time := some [300, 250, 300] }) ∧
    ({ exTrace with _end_time := some [300, 250, 300] } : Trace).endTimeAccess (-1) =
      .ok (300, { exTrace with _end_time := some [300, 250, 300] }) ∧
    (150 : Nat) ≠ 100 ∧ (250 : Nat) ≠ 300 :=
  ⟨rfl, rfl, rfl, rfl, by decide, by decide⟩

/-- Claim C9: when every CPU stream of the capture is empty, the first
access to start_time or end_time raises (ValueError from min or max of an
empty filtered sequence) instead of returning a value. -/
theorem claim_C9_empty_capture_raises (t : Trace) (i : Int)
    (hs : t._start_time = none) (he : t._end_time = none)
    (hstreams : ∀ c, c < t.cpus → t.stream c = []) :
    t.startTimeAccess i = .error (.valueError "min() arg is an empty sequence") ∧
    t.endTimeAccess i = .error (.valueError "max() arg is an empty sequence") := by
  have hsb : ∀ v ∈ startBase t, v = 0 := by
    intro v hv
    simp only [startBase, List.mem_map, List.mem_range] at hv
    obtain ⟨c, hc, hv⟩ := hv
    rw [tracecmd_read_cpu_first, hstreams c hc] at hv
    simpa using hv.symm
  have heb : ∀ v ∈ endBase t, v = 0 := by
    intro v hv
    simp only [endBase, List.mem_map, List.mem_range] at hv
    obtain ⟨c, hc, hv⟩ := hv
    rw [tracecmd_read_cpu_last, hstreams c hc] at hv
    simpa using hv.symm
  have hsf : (startBase t).filter (fun v => decide (0 < v)) = [] := by
    rw [List.filter_eq_nil_iff]
    intro a ha
    simp [hsb a ha]
  have hef : (endBase t).filter (fun v => decide (0 < v)) = [] := by
    rw [List.filter_eq_nil_iff]
    intro a ha
    simp [heb a ha]
  constructor
  · simp only [Trace.startTimeAccess, hs, minPos, hsf]
  · simp only [Trace.endTimeAccess, he, maxPos, hef]

/-- Witness for C9 on the two-CPU capture with no records. -/
theorem claim_C9_witness :
    emptyTrace.startTimeAccess (-1) =
      .error (.valueError "min() arg is an empty sequence") ∧
    emptyTrace.endTimeAccess (-1) =
      .error (.valueError "max() arg is an empty sequence") :=
  claim_C9_empty_capture_raises emptyTrace (-1) rfl rfl (by decide)

/-- Claim C10: num_field and str_field are total (never raise).  Both
return None when the name is absent from the common and event-specific
field lists; num_field also returns None when the numeric read of a
present field fails, so None does not distinguish a missing field from a
failed decode, whereas the Field coercion path raises FieldError on the
same field. -/
theorem claim_C10_num_str_field_total (e : Event) (n : String) :
    (pevent_find_any_field e._format n = none →
      e.num_field n = none ∧ e.str_field n = none) ∧
    (∀ f, pevent_find_any_field e._format n = some f →
      (pevent_read_number_field f (pevent_record_data_get e._record)).1 ≠ 0 →
      e.num_field n = none) ∧
    (∀ f, pevent_find_field e._format n = some f → f.isString = true →
      (Field.mk e._record f).toInt = .error (.fieldError "Not a number field")) := by
  refine ⟨?_, ?_, ?_⟩
  · intro h
    constructor
    · simp only [Event.num_field, h]
    · simp only [Event.str_field, h]
  · intro f h hret
    simp only [Event.num_field, h]
    simp [hret]
  · intro f _ hstr
    unfold Field.toInt
    simp [pevent_read_number_field, hstr]

/-- Witness for C10: a missing name gives None from both accessors, and
the present string-kind field gives None from num_field while the Field
coercion on the same field raises FieldError. -/
theorem claim_C10_witness :
    (exEvent.num_field "zzz" = none ∧ exEvent.str_field "zzz" = none) ∧
    exEvent.num_field "comm" = none ∧
    (Field.mk exEvent._record strField).toInt = .error (.fieldError "Not a number field") :=
  ⟨(claim_C10_num_str_field_total exEvent "zzz").1 rfl,
   (claim_C10_num_str_field_total exEvent "comm").2.1 strField rfl (by decide),
   (claim_C10_num_str_field_total exEvent "comm").2.2 strField rfl rfl⟩

/-- When the filtered list is nonempty, minPos returns its least element. -/
theorem minPos_eq_some (l : List Nat) (a : Nat) (as : List Nat)
    (hf : l.filter (fun v => decide (0 < v)) = a :: as) :
    minPos l = some (as.foldl min a) ∧
    as.foldl min a ∈ l.filter (fun v => decide (0 < v)) ∧
    ∀ y ∈ l.filter (fun v => decide (0 < v)), as.foldl min a ≤ y := by
  refine ⟨?_, ?_, ?_⟩
  · unfold minPos
    rw [hf]
  · rw [hf]
    rcases foldl_min_mem as a with h1 | h1
    · rw [h1]
      exact List.mem_cons_self a as
    · exact List.mem_cons_of_mem a h1
  · intro y hy
    rw [hf] at hy
    rcases List.mem_cons.mp hy with h1 | h1
    · rw [h1]
      exact foldl_min_le_seed as a
    · exact foldl_min_le_mem as a y h1

/-- When the filtered list is nonempty, maxPos returns its greatest
element. -/
theorem maxPos_eq_some (l : List Nat) (a : Nat) (as : List Nat)
    (hf : l.filter (fun v => decide (0 < v)) = a :: as) :
    maxPos l = some (as.foldl max a) ∧
    as.foldl max a ∈ l.filter (fun v => decide (0 < v)) ∧
    ∀ y ∈ l.filter (fun v => decide (0 < v)), y ≤ as.foldl max a := by
  refine ⟨?_, ?_, ?_⟩
  · unfold maxPos
    rw [hf]
  · rw [hf]
    rcases foldl_max_mem as a with h1 | h1
    · rw [h1]
      exact List.mem_cons_self a as
    · exact List.mem_cons_of_mem a h1
  · intro y hy
    rw [hf] at hy
    rcases List.mem_cons.mp hy with h1 | h1
    · rw [h1]
      exact foldl_max_ge_seed as a
    · exact foldl_max_ge_mem as a y h1

/-- The per-CPU start table has one slot per CPU. -/
theorem startBase_length (t : Trace) : (startBase t).length = t.cpus := by
  simp [startBase]

/-- The per-CPU end table has one slot per CPU. -/
theorem endBase_length (t : Trace) : (endBase t).length = t.cpus := by
  simp [endBase]

/-- An access on a session whose start cache is set indexes the cached
list with the selector and leaves the session unchanged. -/
theorem startTimeAccess_cached (t : Trace) (l : List Nat)
    (hs : t._start_time = some l) (i : Int) :
    t.startTimeAccess i = (pyGet l i).map (fun v => (v, t)) := by
  simp only [Trace.startTimeAccess, hs]

/-- An access on a session whose end cache is set indexes the cached list
with the selector and leaves the session unchanged. -/
theorem endTimeAccess_cached (t : Trace) (l : List Nat)
    (hs : t._end_time = some l) (i : Int) :
    t.endTimeAccess i = (pyGet l i).map (fun v => (v, t)) := by
  simp only [Trace.endTimeAccess, hs]

/-- The first start_time access on a nonempty capture caches the per-CPU
table with the minimum of the nonzero slots appended, and returns the slot
at index cpus - 1 (the Python loop variable leak), whatever selector was
passed. -/
theorem startTimeAccess_first (t : Trace) (i : Int) (hs : t._start_time = none)
    (a : Nat) (as : List Nat)
    (hf : (startBase t).filter (fun v => decide (0 < v)) = a :: as)
    (hcpus : t.cpus ≠ 0) :
    t.startTimeAccess i =
      .ok ((startBase t ++ [as.foldl min a]).getD (t.cpus - 1) 0,
        { t with _start_time := some (startBase t ++ [as.foldl min a]) }) := by
  have hmin := (minPos_eq_some (startBase t) a as hf).1
  have hlen : t.cpus - 1 < (startBase t ++ [as.foldl min a]).length := by
    simp only [List.length_append, startBase_length, List.length_singleton]
    omega
  simp only [Trace.startTimeAccess, hs, hmin]
  rw [if_neg hcpus]
  rw [pyGet_natIdx _ _ hlen]
  rw [List.getD_eq_getElem _ 0 hlen]
  rfl

/-- The first end_time access, symmetric to the start case with the
maximum of the nonzero slots. -/
theorem endTimeAccess_first (t : Trace) (i : Int) (hs : t._end_time = none)
    (a : Nat) (as : List Nat)
    (hf : (endBase t).filter (fun v => decide (0 < v)) = a :: as)
    (hcpus : t.cpus ≠ 0) :
    t.endTimeAccess i =
      .ok ((endBase t ++ [as.foldl max a]).getD (t.cpus - 1) 0,
        { t with _end_time := some (endBase t ++ [as.foldl max a]) }) := by
  have hmax := (maxPos_eq_some (endBase t) a as hf).1
  have hlen : t.cpus - 1 < (endBase t ++ [as.foldl max a]).length := by
    simp only [List.length_append, endBase_length, List.length_singleton]
    omega
  simp only [Trace.endTimeAccess, hs, hmax]
  rw [if_neg hcpus]
  rw [pyGet_natIdx _ _ hlen]
  rw [List.getD_eq_getElem _ 0 hlen]
  rfl

/-- Claim C2: on first access (with fresh caches and at least one nonzero
per-CPU value) the start_time and end_time getters compute the per-CPU
tables whose slot d holds the timestamp of the first, respectively last,
record of CPU d (0 for an empty stream), append the session-wide extremum
(minimum of the nonzero starts, maximum of the nonzero ends) as an extra
slot addressable with the all selector -1, and cache the result; a later
access supplying a per-CPU selector returns that CPU's cached slot. -/
theorem claim_C2_start_end_tables (t : Trace) (c : Nat) (i : Int)
    (hs : t._start_time = none) (he : t._end_time = none) (hc : c < t.cpus)
    (hps : ∃ v ∈ startBase t, 0 < v) (hpe : ∃ v ∈ endBase t, 0 < v) :
    ∃ sm em v w,
      t.startTimeAccess i =
        .ok (v, { t with _start_time := some (startBase t ++ [sm]) }) ∧
      t.endTimeAccess i =
        .ok (w, { t with _end_time := some (endBase t ++ [em]) }) ∧
      (∀ d, d < t.cpus → (startBase t).getD d 0 =
        (match (t.stream d).head? with | some r => r.ts | none => 0)) ∧
      (∀ d, d < t.cpus → (endBase t).getD d 0 =
        (match (t.stream d).getLast? with | some r => r.ts | none => 0)) ∧
      pyGet (startBase t ++ [sm]) (-1) = .ok sm ∧
      pyGet (endBase t ++ [em]) (-1) = .ok em ∧
      sm ∈ (startBase t).filter (fun v => decide (0 < v)) ∧
      (∀ y ∈ (startBase t).filter (fun v => decide (0 < v)), sm ≤ y) ∧
      em ∈ (endBase t).filter (fun v => decide (0 < v)) ∧
      (∀ y ∈ (endBase t).filter (fun v => decide (0 < v)), y ≤ em) ∧
      ({ t with _start_time := some (startBase t ++ [sm]) } : Trace).startTimeAccess
          (c : Int) =
        .ok ((startBase t).getD c 0,
          { t with _start_time := some (startBase t ++ [sm]) }) ∧
      ({ t with _end_time := some (endBase t ++ [em]) } : Trace).endTimeAccess
          (c : Int) =
        .ok ((endBase t).getD c 0,
          { t with _end_time := some (endBase t ++ [em]) }) := by
  obtain ⟨vs, hvs, hvs0⟩ := hps
  obtain ⟨ve, hve, hve0⟩ := hpe
  have hcpus : t.cpus ≠ 0 := by omega
  rcases hfs : (startBase t).filter (fun v => decide (0 < v)) with _ | ⟨a, as⟩
  · exfalso
    have hm : vs ∈ (startBase t).filter (fun v => decide (0 < v)) :=
      List.mem_filter.mpr ⟨hvs, by simpa using hvs0⟩
    rw [hfs] at hm
    cases hm
  rcases hfe : (endBase t).filter (fun v => decide (0 < v)) with _ | ⟨b, bs⟩
  · exfalso
    have hm : ve ∈ (endBase t).filter (fun v => decide (0 < v)) :=
      List.mem_filter.mpr ⟨hve, by simpa using hve0⟩
    rw [hfe] at hm
    cases hm
  obtain ⟨_, hsmem, hsle⟩ := minPos_eq_some (startBase t) a as hfs
  obtain ⟨_, hemem, hege⟩ := maxPos_eq_some (endBase t) b bs hfe
  rw [hfs] at hsmem hsle
  rw [hfe] at hemem hege
  have hclen : c < (startBase t).length := by rw [startBase_length]; exact hc
  have hclen2 : c < (endBase t).length := by rw [endBase_length]; exact hc
  refine ⟨as.foldl min a, bs.foldl max b,
    (startBase t ++ [as.foldl min a]).getD (t.cpus - 1) 0,
    (endBase t ++ [bs.foldl max b]).getD (t.cpus - 1) 0,
    startTimeAccess_first t i hs a as hfs hcpus,
    endTimeAccess_first t i he b bs hfe hcpus,
    ?_, ?_,
    pyGet_neg_one_append _ _, pyGet_neg_one_append _ _,
    hsmem, hsle, hemem, hege, ?_, ?_⟩
  · intro d hd
    have hdl : d < ((List.range t.cpus).map (fun c =>
        match tracecmd_read_cpu_first t c with
        | some r => pevent_record_ts_get r
        | none => 0)).length := by simp [hd]
    simp only [startBase]
    rw [List.getD_eq_getElem _ 0 hdl, List.getElem_map, List.getElem_range]
    rfl
  · intro d hd
    have hdl : d < ((List.range t.cpus).map (fun c =>
        match tracecmd_read_cpu_last t c with
        | some r => pevent_record_ts_get r
        | none => 0)).length := by simp [hd]
    simp only [endBase]
    rw [List.getD_eq_getElem _ 0 hdl, List.getElem_map, List.getElem_range]
    rfl
  · rw [startTimeAccess_cached _ (startBase t ++ [as.foldl min a]) rfl]
    rw [pyGet_append_left _ _ c hclen]
    rfl
  · rw [endTimeAccess_cached _ (endBase t ++ [bs.foldl max b]) rfl]
    rw [pyGet_append_left _ _ c hclen2]
    rfl

/-- Witness for C2 at the example trace, selector -1 for the first access
and per-CPU selector 1 afterwards. -/
theorem claim_C2_witness :
    ∃ sm em v w,
      exTrace.startTimeAccess (-1) =
        .ok (v, { exTrace with _start_time := some (startBase exTrace ++ [sm]) }) ∧
      exTrace.endTimeAccess (-1) =
        .ok (w, { exTrace with _end_time := some (endBase exTrace ++ [em]) }) ∧
      (∀ d, d < exTrace.cpus → (startBase exTrace).getD d 0 =
        (match (exTrace.stream d).head? with | some r => r.ts | none => 0)) ∧
      (∀ d, d < exTrace.cpus → (endBase exTrace).getD d 0 =
        (match (exTrace.stream d).getLast? with | some r => r.ts | none => 0)) ∧
      pyGet (startBase exTrace ++ [sm]) (-1) = .ok sm ∧
      pyGet (endBase exTrace ++ [em]) (-1) = .ok em ∧
      sm ∈ (startBase exTrace).filter (fun v => decide (0 < v)) ∧
      (∀ y ∈ (startBase exTrace).filter (fun v => decide (0 < v)), sm ≤ y) ∧
      em ∈ (endBase exTrace).filter (fun v => decide (0 < v)) ∧
      (∀ y ∈ (endBase exTrace).filter (fun v => decide (0 < v)), y ≤ em) ∧
      ({ exTrace with _start_time := some (startBase exTrace ++ [sm]) } :
          Trace).startTimeAccess (1 : Int) =
        .ok ((startBase exTrace).getD 1 0,
          { exTrace with _start_time := some (startBase exTrace ++ [sm]) }) ∧
      ({ exTrace with _end_time := some (endBase exTrace ++ [em]) } :
          Trace).endTimeAccess (1 : Int) =
        .ok ((endBase exTrace).getD 1 0,
          { exTrace with _end_time := some (endBase exTrace ++ [em]) }) :=
  claim_C2_start_end_tables exTrace 1 (-1) rfl rfl (by decide) (by decide) (by decide)

/-- Converting a record to an event binds that record, keeping its
timestamp. -/
theorem record_to_event_fields (t : Trace) (r : Record) (ev : Event)
    (h : t.record_to_event (some r) = some ev) :
    ev._record = r ∧ ev.ts = r.ts := by
  rcases hl : pevent_data_event_from_type t._pevent (pevent_data_type t._pevent r)
    with _ | fmt
  · simp only [Trace.record_to_event, hl] at h
    exact Option.noConfusion h
  · simp only [Trace.record_to_event, hl] at h
    by_cases h0 : pevent_data_type t._pevent r ≠ 0
    · rw [if_pos h0] at h
      cases h
      exact ⟨rfl, rfl⟩
    · rw [if_neg h0] at h
      cases h

/-- The records of the events yielded by the per-CPU read loop are an
initial segment of the records in front of the cursor: on-disk order, no
skipping, no reordering. -/
theorem eventLoop_take (t : Trace) (e : Nat) :
    ∀ recs : List Record,
      (eventLoop t e recs).map Event._record =
        recs.take ((eventLoop t e recs).length)
  | [] => rfl
  | r :: rest => by
      rcases h : t.record_to_event (some r) with _ | ev
      · simp only [eventLoop, h]
        rfl
      · simp only [eventLoop, h]
        by_cases hb : 0 < e ∧ e < ev.ts
        · rw [if_pos hb]
          rfl
        · rw [if_neg hb]
          simp only [List.map_cons, List.length_cons, List.take_succ_cons]
          rw [(record_to_event_fields t r ev h).1]
          exact congrArg (List.cons r) (eventLoop_take t e rest)

/-- Every event yielded by the bounded per-CPU read loop has a timestamp
within the bound when a bound is set. -/
theorem eventLoop_ts_le (t : Trace) (e : Nat) (recs : List Record) :
    ∀ ev ∈ eventLoop t e recs, 0 < e → ev.ts ≤ e := by
  induction recs with
  | nil =>
      intro ev h
      simp [eventLoop] at h
  | cons r rest ih =>
      intro ev hmem hpos
      rcases h : t.record_to_event (some r) with _ | ev2
      · simp only [eventLoop, h] at hmem
        cases hmem
      · simp only [eventLoop, h] at hmem
        by_cases hb : 0 < e ∧ e < ev2.ts
        · rw [if_pos hb] at hmem
          cases hmem
        · rw [if_neg hb] at hmem
          rcases List.mem_cons.mp hmem with h1 | h1
          · subst h1
            omega
          · exact ih ev h1 hpos

/-- A concatenation of per-index blocks that are all empty is empty. -/
theorem flatten_nil_of_all {α : Type} (l : List Nat) (g : Nat → List α)
    (h : ∀ i ∈ l, g i = []) : (l.map g).flatten = [] := by
  induction l with
  | nil => rfl
  | cons a as ih =>
      simp only [List.map_cons, List.flatten_cons, h a (List.mem_cons_self a as),
        List.nil_append]
      exact ih (fun i hi => h i (List.mem_cons_of_mem a hi))

/-- A concatenation of per-index blocks over an index range collapses to
the single nonempty block. -/
theorem flatten_eq_single {α : Type} (g : Nat → List α) :
    ∀ (n c : Nat), c < n → (∀ i, i < n → i ≠ c → g i = []) →
      ((List.range n).map g).flatten = g c := by
  intro n
  induction n with
  | zero =>
      intro c hc
      omega
  | succ m ih =>
      intro c hc hz
      rw [List.range_succ, List.map_append, List.flatten_append]
      by_cases hcm : c = m
      · subst hcm
        have hnil : ((List.range c).map g).flatten = [] :=
          flatten_nil_of_all _ g (fun i hi => by
            have := List.mem_range.mp hi
            exact hz i (by omega) (by omega))
        rw [hnil]
        simp
      · have hgm : g m = [] := hz m (by omega) (by omega)
        rw [ih c (by omega) (fun i hi hic => hz i (by omega) hic)]
        simp [hgm]

/-- The generator with the all selector walks every CPU in ascending index
order and runs the per-CPU loop on each. -/
theorem events_all_eventLoop (t : Trace) (s e : Nat) :
    t.events (-1) s e = ((List.range t.cpus).map (fun c =>
      eventLoop t e ((t.stream c).drop (seekIndex (t.stream c) s)))).flatten := by
  unfold Trace.events
  congr 1

/-- The generator with a single in-range CPU selector yields exactly that
CPU's loop. -/
theorem events_single (t : Trace) (c : Nat) (s e : Nat) (hc : c < t.cpus) :
    t.events (c : Int) s e =
      eventLoop t e ((t.stream c).drop (seekIndex (t.stream c) s)) := by
  have hside : ∀ i, i < t.cpus → i ≠ c →
      (if (c : Int) = (i : Int) ∨ (c : Int) = -1 then
        eventLoop t e ((t.stream i).drop (seekIndex (t.stream i) s)) else []) = [] := by
    intro i hi hic
    rw [if_neg]
    push_neg
    omega
  unfold Trace.events
  rw [flatten_eq_single _ t.cpus c hc hside, if_pos (Or.inl rfl)]

/-- The all-selector generator is the concatenation, in ascending CPU
order, of the single-CPU generators: never time-merged across CPUs. -/
theorem events_all_decomp (t : Trace) (s e : Nat) :
    t.events (-1) s e =
      ((List.range t.cpus).map (fun (c : Nat) => t.events (c : Int) s e)).flatten := by
  rw [events_all_eventLoop]
  congr 1
  apply List.map_congr_left
  intro c hcm
  exact (events_single t c s e (List.mem_range.mp hcm)).symm

/-- Every record the repositioned cursor skips is earlier than the
requested start time. -/
theorem seek_skipped_lt (s : Nat) :
    ∀ l : List Record, ∀ r ∈ l.take (seekIndex l s), r.ts < s := by
  intro l
  induction l with
  | nil =>
      intro r h
      simp at h
  | cons a as ih =>
      intro r hr
      by_cases hp : s ≤ a.ts
      · have h0 : seekIndex (a :: as) s = 0 := by
          simp [seekIndex, List.findIdx_cons, hp]
        rw [h0] at hr
        simp at hr
      · have h1 : seekIndex (a :: as) s = seekIndex as s + 1 := by
          simp [seekIndex, List.findIdx_cons, hp]
        rw [h1, List.take_succ_cons] at hr
        rcases List.mem_cons.mp hr with h2 | h2
        · subst h2
          omega
        · exact ih r h2

/-- Claim C1: with the all selector -1 the generator visits the CPUs in
ascending index order and never merges across CPUs (it is the
concatenation of the single-CPU generators); for each CPU the cursor is
first repositioned to start_time (everything skipped is earlier than
start_time) and the yielded events bind, in order, an initial segment of
the records from the repositioned cursor on; and when end_time is
positive every yielded event's timestamp is at most end_time. -/
theorem claim_C1_events_per_cpu (t : Trace) (s e : Nat) :
    t.events (-1) s e =
      ((List.range t.cpus).map (fun (c : Nat) => t.events (c : Int) s e)).flatten ∧
    (∀ c, c < t.cpus →
      (t.events (c : Int) s e).map Event._record =
        ((t.stream c).drop (seekIndex (t.stream c) s)).take
          ((t.events (c : Int) s e).length) ∧
      (∀ r ∈ (t.stream c).take (seekIndex (t.stream c) s), r.ts < s)) ∧
    (∀ ev ∈ t.events (-1) s e, 0 < e → ev.ts ≤ e) := by
  refine ⟨events_all_decomp t s e, ?_, ?_⟩
  · intro c hc
    constructor
    · rw [events_single t c s e hc]
      exact eventLoop_take t e _
    · exact seek_skipped_lt s (t.stream c)
  · intro ev hmem hpos
    rw [events_all_eventLoop] at hmem
    rw [List.mem_flatten] at hmem
    obtain ⟨l, hl, hev⟩ := hmem
    rw [List.mem_map] at hl
    obtain ⟨c, _, rfl⟩ := hl
    exact eventLoop_ts_le t e _ ev hev hpos

/-- Witness for C1 at the example trace, with start_time 150 and end_time
250: the decomposition, the per-CPU initial-segment property at CPU 0,
the skipped-record bound at CPU 0, and the end_time bound at a concrete
yielded event. -/
theorem claim_C1_witness :
    (exTrace.events (-1) 150 250 =
      ((List.range exTrace.cpus).map
        (fun (c : Nat) => exTrace.events (c : Int) 150 250)).flatten) ∧
    ((exTrace.events ((0 : Nat) : Int) 150 250).map Event._record =
      ((exTrace.stream 0).drop (seekIndex (exTrace.stream 0) 150)).take
        ((exTrace.events ((0 : Nat) : Int) 150 250).length)) ∧
    (r0 ∈ (exTrace.stream 0).take (seekIndex (exTrace.stream 0) 150) ∧ r0.ts < 150) ∧
    (Event.make exPevent r3 exFormat 1 ∈ exTrace.events (-1) 150 250 ∧
      (Event.make exPevent r3 exFormat 1).ts ≤ 250) :=
  ⟨(claim_C1_events_per_cpu exTrace 150 250).1,
   ((claim_C1_events_per_cpu exTrace 150 250).2.1 0 (by decide)).1,
   ⟨by decide,
    ((claim_C1_events_per_cpu exTrace 150 250).2.1 0 (by decide)).2 r0 (by decide)⟩,
   ⟨by decide,
    (claim_C1_events_per_cpu exTrace 150 250).2.2 (Event.make exPevent r3 exFormat 1)
      (by decide) (by decide)⟩⟩

end Tracecmd
